import Mathlib

/-!
Verification of the npm-client and publish-registry components of the
types-publisher pipeline, as a shallow embedding in Lean 4.

Modelling conventions:
* JavaScript `Map`s and plain objects used as dictionaries are embedded as
  association lists `List (String × β)`; `Map.get`/property lookup is
  `List.lookup`, and `Map.set`/property assignment is `mapSet` below
  (update-in-place of the first matching binding, else append).
* `undefined`-able values are `Option`; thrown exceptions are `Except String`.
* Asynchronous effects (network fetches, cache-file writes) are made explicit:
  each operation is a pure function of the state it reads together with the
  responses its collaborators would return, and it reports how many fetches /
  writes it performed.
-/

set_option autoImplicit false

namespace TypesPublisher

/-- `mapSet m k v` embeds JavaScript `Map.prototype.set` (and object property
assignment): replace the first binding of `k` in place, else append. -/
def mapSet {β : Type} : List (String × β) → String → β → List (String × β)
  | [], k, v => [(k, v)]
  | (k', v') :: rest, k, v =>
    if k' = k then (k, v) :: rest else (k', v') :: mapSet rest k v

/-- A version entry of the normalized `NpmInfo` shape: exactly the two fields
`typesPublisherContentHash` and `deprecated` (source interface `NpmInfoVersion`). -/
structure NpmInfoVersion where
  typesPublisherContentHash : String
  deprecated : Option String
deriving DecidableEq

/-- A per-version object of the raw registry document.  Upstream may attach
arbitrary further fields; they are modelled by `extraFields`. -/
structure RawVersion where
  typesPublisherContentHash : String
  deprecated : Option String
  extraFields : List (String × String)
deriving DecidableEq

/-- The raw registry document (source interface `NpmInfoRaw`): `version`,
`dist-tags` (here `distTags`), `versions`, `time.modified` (here
`timeModified`), plus arbitrary extra top-level fields. -/
structure NpmInfoRaw where
  version : String
  distTags : List (String × String)
  versions : List (String × RawVersion)
  timeModified : String
  extraFields : List (String × String)
deriving DecidableEq

/-- The processed npm info (source interface `NpmInfo`), intentionally kept
small so it can be cached. -/
structure NpmInfo where
  version : String
  distTags : List (String × String)
  versions : List (String × NpmInfoVersion)
  timeModified : String
deriving DecidableEq

/-- The per-version callback of `npmInfoFromJson`:
`({ typesPublisherContentHash, deprecated }) => ({ typesPublisherContentHash, deprecated })`,
which drops any other properties of the raw version object. -/
def stripVersion (v : RawVersion) : NpmInfoVersion :=
  { typesPublisherContentHash := v.typesPublisherContentHash
    deprecated := v.deprecated }

/-- Source `npmInfoFromJson` — normalize a raw document.  `recordToMap(r, f)`
is embedded as mapping `f` over the values of the association list. -/
def npmInfoFromJson (n : NpmInfoRaw) : NpmInfo :=
  { version := n.version
    distTags := n.distTags.map (fun p => (p.1, p.2))
    versions := n.versions.map (fun p => (p.1, stripVersion p.2))
    timeModified := n.timeModified }

/-- The wire shape of a normalized version entry: the two tracked fields and
no extras. -/
def rawFromVersion (v : NpmInfoVersion) : RawVersion :=
  { typesPublisherContentHash := v.typesPublisherContentHash
    deprecated := v.deprecated
    extraFields := [] }

/-- Source `jsonFromNpmInfo` — denormalize back to the wire shape;
`mapToRecord` is the identity on the association list. -/
def jsonFromNpmInfo (n : NpmInfo) : NpmInfoRaw :=
  { version := n.version
    distTags := n.distTags
    versions := n.versions.map (fun p => (p.1, rawFromVersion p.2))
    timeModified := n.timeModified
    extraFields := [] }

/-- A raw document restricted to the four tracked fields: all extra top-level
fields and all extra per-version fields removed, everything else kept. -/
def restrictRaw (n : NpmInfoRaw) : NpmInfoRaw :=
  { version := n.version
    distTags := n.distTags
    versions := n.versions.map (fun p => (p.1, { p.2 with extraFields := [] }))
    timeModified := n.timeModified
    extraFields := [] }

/-! ## CachedNpmInfoClient -/

/-- The in-memory cache owned by one `CachedNpmInfoClient`: package name to
normalized info, as loaded from `cache/npmInfo.json`. -/
abbrev Cache := List (String × NpmInfo)

/-- The source's `some(cached.versions.values(), v => v.typesPublisherContentHash === contentHash)`:
does any version recorded in the entry carry the supplied content hash? -/
def hasMatchingHash (info : NpmInfo) (contentHash : String) : Bool :=
  info.versions.any fun p => p.2.typesPublisherContentHash = contentHash

/-- The guard of `getNpmInfo`:
`cached !== undefined && contentHash !== undefined && some(...)`. -/
def cacheHit (cache : Cache) (name : String) (contentHash : Option String) : Bool :=
  match cache.lookup name, contentHash with
  | some cached, some h => hasMatchingHash cached h
  | _, _ => false

/-- The outcome of one `getNpmInfo` call: the value returned to the caller,
the cache as left behind, and the number of network fetches performed. -/
structure GetResult where
  info : Option NpmInfo
  cache : Cache
  fetchCount : Nat
deriving DecidableEq

/-- Lines 63–66 of `getNpmInfo`: fetch from the uncached client, and store
the result under the name iff the fetch returned a defined result and a
content hash was supplied. -/
def fetchAndUpdate (cache : Cache) (fetchResult : Option NpmInfo)
    (escapedPackageName : String) (contentHash : Option String) : GetResult :=
  match fetchResult, contentHash with
  | some i, some _ =>
    { info := some i, cache := mapSet cache escapedPackageName i,
      fetchCount := 1 }
  | _, _ => { info := fetchResult, cache := cache, fetchCount := 1 }

/-- Source `CachedNpmInfoClient.getNpmInfo`.  `fetchResult` is what
`uncachedClient.fetchNpmInfo(escapedPackageName)` would return if consulted;
the returned `fetchCount` records whether it actually was.  On a hit the
returned `info` is the looked-up entry (`some` by the `cacheHit` guard). -/
def getNpmInfo (cache : Cache) (fetchResult : Option NpmInfo)
    (escapedPackageName : String) (contentHash : Option String) : GetResult :=
  if cacheHit cache escapedPackageName contentHash then
    { info := cache.lookup escapedPackageName, cache := cache,
      fetchCount := 0 }
  else
    fetchAndUpdate cache fetchResult escapedPackageName contentHash

/-- Source `CachedNpmInfoClient.with`: build the client from the loaded
cache, run the callback, then write the cache and return the callback's
result.  The callback is modelled as a function from the (mutable) cache to
either a thrown error or a result together with the mutated cache; the second
component of the outcome lists the cache snapshots written to the cache file,
in order.  The source awaits `cb` and then `writeCache()` sequentially, with
no try/finally around `cb`. -/
def withCachedClient {T : Type} (initialCache : Cache)
    (cb : Cache → Except String (T × Cache)) :
    Except String T × List Cache :=
  match cb initialCache with
  | .error e => (.error e, [])
  | .ok (res, finalCache) => (.ok res, [finalCache])

/-! ## UncachedNpmInfoClient -/

/-- What the registry read endpoint answers for one package: either a JSON
document with an `error` field (`{ "error": string }`), or a raw info
document.  The source distinguishes the two with `"error" in info`. -/
inductive RegistryResponse where
  | errorPayload (msg : String)
  | payload (raw : NpmInfoRaw)
deriving DecidableEq

/-- Source `UncachedNpmInfoClient.fetchRawNpmInfo`: `response` is the decoded
JSON the fetcher returns for the GET.  An error payload of exactly
`"Not found"` yields `undefined` (`none`); any other error payload throws
`Error getting version at <name>: <error>`; a non-error payload is returned. -/
def fetchRawNpmInfo (escapedPackageName : String)
    (response : RegistryResponse) : Except String (Option NpmInfoRaw) :=
  match response with
  | .errorPayload msg =>
    if msg = "Not found" then .ok none
    else .error ("Error getting version at " ++ escapedPackageName ++ ": " ++ msg)
  | .payload raw => .ok (some raw)

/-- Source `UncachedNpmInfoClient.fetchNpmInfo`: fetch raw, then normalize
with `npmInfoFromJson` when defined.  (The post-fetch `sleep(0.01)` is a
real-time concern outside the embedding.) -/
def fetchNpmInfo (escapedPackageName : String)
    (response : RegistryResponse) : Except String (Option NpmInfo) :=
  match fetchRawNpmInfo escapedPackageName response with
  | .error e => .error e
  | .ok none => .ok none
  | .ok (some raw) => .ok (some (npmInfoFromJson raw))

/-! ## NpmPublishClient -/

/-- Modelled from the spec: the registry base URL (`npmRegistry` lives in
`settings.ts`, which is not under src/); §6 only requires that the read and
write endpoints live at `<registry-base>/<package path>`. -/
def npmRegistry : String := "https://registry.npmjs.org/"

/-- Modelled from the spec: `url.resolve(npmRegistry, packageName)` for a
base URL ending in `/` and a relative package path appends the path to the
base (§6: GET `<registry-base>/<urlEncodedPackageName>`). -/
def packageUrl (packageName : String) : String :=
  npmRegistry ++ packageName

/-- Does `cs` start with `pat`? (Helper for embedding JavaScript
`String.prototype.replace` with a string pattern.) -/
def listStartsWith : List Char → List Char → Bool
  | [], _ => true
  | _ :: _, [] => false
  | p :: ps, c :: cs => p == c && listStartsWith ps cs

/-- JavaScript `String.prototype.replace` with a string pattern replaces only
the first occurrence; this is its character-list form. -/
def replaceFirstList (pat repl : List Char) : List Char → List Char
  | [] => []
  | c :: rest =>
    if listStartsWith pat (c :: rest) then
      repl ++ List.drop pat.length (c :: rest)
    else c :: replaceFirstList pat repl rest

/-- JavaScript `s.replace(pat, repl)` with a string pattern (first occurrence
only). -/
def replaceFirst (s pat repl : String) : String :=
  ⟨replaceFirstList pat.data repl.data s.data⟩

/-- The target URL of `NpmPublishClient.deprecate`:
`packageUrl(packageName.replace("/", "%2f"))`. -/
def deprecateUrl (packageName : String) : String :=
  packageUrl (replaceFirst packageName "/" "%2f")

/-- The outcome of one `NpmPublishClient.publish` call: whether the promise
resolved or rejected, and how many registry calls were issued. -/
structure PublishOutcome where
  result : Except String Unit
  registryCalls : Nat

/-- Source `NpmPublishClient.publish`: the readme read and the tgz body are
local file-system collaborators (assumed available); `registryError` is what
`client.publish`'s callback would report if the registry were contacted.
When `dry` is true the promise resolves at once without the registry call;
otherwise the one registry call decides the outcome. -/
def publish (publishedDirectory : String) (packageJson : List (String × String))
    (registryError : Option String) (dry : Bool) : PublishOutcome :=
  let _metadata := ("readme", publishedDirectory ++ "/README.md") :: packageJson
  if dry then { result := .ok (), registryCalls := 0 }
  else
    match registryError with
    | some err => { result := .error err, registryCalls := 1 }
    | none => { result := .ok (), registryCalls := 1 }

/-! ## Registry-publish workflow (bin/publish-registry.js) -/

/-- `JSON.stringify` of an array of package-name strings, as interpolated
into the "New packages have been added" log line. -/
def jsonStringifyNames (added : List String) : String :=
  "[" ++ String.intercalate "," (added.map fun s => "\x22" ++ s ++ "\x22") ++ "]"

/-- The generated `package.json` of the `types-registry` meta-package
(source `generatePackageJson`; the fixed fields are kept verbatim). -/
structure PackageJson where
  name : String
  version : String
  description : String
  author : String
  license : String
deriving DecidableEq

/-- Source `generatePackageJson(patch)`. -/
def generatePackageJson (patch : Nat) : PackageJson :=
  { name := "types-registry"
    version := "0.1." ++ toString patch
    description := "A registry of TypeScript declaration file packages published within the @types scope."
    author := "Microsoft Corp."
    license := "Apache-2.0" }

/-- Source `generateRegistry(typings)`: build the `entries` object by
assigning `entries[typingsPackageName] = 1` for each known typing. -/
def generateRegistry (typings : List String) : List (String × Nat) :=
  typings.foldl (fun entries n => mapSet entries n 1) []

/-- The observable outcome of one run of `main` in publish-registry.js:
the log lines in order, the number of registry calls issued (the
`fetchLastPatchNumber` read plus the publish when not dry), and the
generated package.json and index content when the CHANGED path ran. -/
structure WorkflowResult where
  logLines : List String
  registryCalls : Nat
  published : Option (PackageJson × List (String × Nat))
deriving DecidableEq

/-- Source `generateAndPublishRegistry` (given the typings read from disk and
the last published patch number fetched from the registry): generate
package.json at the next patch, generate the index, and publish. -/
def generateAndPublishRegistry (typings : List String) (lastPatch : Nat)
    (dry : Bool) : WorkflowResult :=
  let packageJson := generatePackageJson (lastPatch + 1)
  { logLines := []
    registryCalls := 1 + (if dry then 0 else 1)
    published := some (packageJson, generateRegistry typings) }

/-- Source `main` of publish-registry.js: log the header; if the
externally-supplied added-packages list is non-empty, log and run
`generateAndPublishRegistry`; otherwise log that nothing needs publishing and
stop without contacting the registry. -/
def mainWorkflow (added : List String) (typings : List String)
    (lastPatch : Nat) (dry : Bool) : WorkflowResult :=
  let header := "=== Publishing types-registry ==="
  if added.length ≠ 0 then
    let sub := generateAndPublishRegistry typings lastPatch dry
    { logLines :=
        header ::
        ("New packages have been added: " ++ jsonStringifyNames added ++
          ", so publishing a new registry") :: sub.logLines
      registryCalls := sub.registryCalls
      published := sub.published }
  else
    { logLines :=
        [header, "No new packages published, so no need to publish new registry."]
      registryCalls := 0
      published := none }

/-! ## Concrete sample data -/

/-- A sample version entry with content hash `"H"`, for concrete instances. -/
def sampleVersion : NpmInfoVersion :=
  { typesPublisherContentHash := "H", deprecated := none }

/-- A sample cached entry whose only version carries content hash `"H"`. -/
def sampleInfo : NpmInfo :=
  { version := "1.0.0"
    distTags := [("latest", "1.0.0")]
    versions := [("1.0.0", sampleVersion)]
    timeModified := "2019-01-01" }

end TypesPublisher

namespace TypesPublisher

/-- C4: For every well-formed raw registry document `r`,
`jsonFromNpmInfo (npmInfoFromJson r)` equals `r` restricted to the four
tracked fields — `version`, the `dist-tags` pairs, per-version
`typesPublisherContentHash` and `deprecated`, and `time.modified` — with
every other top-level or per-version field dropped. -/
theorem roundTrip_restricts_to_tracked_fields (r : NpmInfoRaw) :
    jsonFromNpmInfo (npmInfoFromJson r) = restrictRaw r := by
  simp only [jsonFromNpmInfo, npmInfoFromJson, restrictRaw, List.map_map,
    NpmInfoRaw.mk.injEq, true_and, and_true]
  exact ⟨List.map_id r.distTags, rfl⟩

/-- C1 counterexample: a session whose unit of work throws performs zero
cache-file writes, not exactly one — `CachedNpmInfoClient.with` awaits the
callback before `writeCache()`, with no try/finally, so a rejection skips the
write. -/
theorem withCachedClient_throwing_session_skips_write :
    (withCachedClient (T := Unit) [("pkg", sampleInfo)]
        (fun _ => Except.error "later package failed")).2 = [] ∧
    (withCachedClient (T := Unit) [("pkg", sampleInfo)]
        (fun _ => Except.error "later package failed")).2.length ≠ 1 := by
  constructor
  · rfl
  · intro h
    simp [withCachedClient] at h

/-- C1 (amended): the cache is written back exactly once when the unit of
work completes normally, and the write reflects all mutations the unit of
work made; if the unit of work throws, no cache write occurs and the failure
propagates unchanged. -/
theorem withCachedClient_write_policy {T : Type} (c : Cache)
    (cb : Cache → Except String (T × Cache)) :
    (∀ res finalCache, cb c = .ok (res, finalCache) →
        withCachedClient c cb = (.ok res, [finalCache])) ∧
    (∀ e, cb c = .error e → withCachedClient c cb = (.error e, [])) := by
  constructor
  · intro res finalCache hok
    simp [withCachedClient, hok]
  · intro e herr
    simp [withCachedClient, herr]

/-- C1 (amended) witness at a concrete successful session that inserts one
entry into an empty cache. -/
theorem withCachedClient_write_policy_witness :
    withCachedClient (T := Unit) []
        (fun c => Except.ok ((), mapSet c "pkg" sampleInfo)) =
      (Except.ok (), [[("pkg", sampleInfo)]]) :=
  (withCachedClient_write_policy []
      (fun c => Except.ok ((), mapSet c "pkg" sampleInfo))).1
    () [("pkg", sampleInfo)] rfl

/-- C2: when the cache holds an entry for the name and a content hash is
supplied, `getNpmInfo` returns the cached entry unchanged with zero fetches
exactly when some cached version carries that hash, and performs exactly one
fetch when none does. -/
theorem getNpmInfo_hit_or_single_fetch (cache : Cache)
    (fetchResult : Option NpmInfo) (name : String) (entry : NpmInfo)
    (h : String) (hlook : cache.lookup name = some entry) :
    (hasMatchingHash entry h = true →
        getNpmInfo cache fetchResult name (some h) =
          { info := some entry, cache := cache, fetchCount := 0 }) ∧
    (hasMatchingHash entry h = false →
        (getNpmInfo cache fetchResult name (some h)).fetchCount = 1) := by
  constructor <;> intro hm
  · simp [getNpmInfo, cacheHit, hlook, hm]
  · cases fetchResult <;> simp [getNpmInfo, cacheHit, hlook, hm, fetchAndUpdate]

/-- C2 witness: a concrete cache hit (supplied hash `"H"` matches the sole
cached version), returning the entry with zero fetches. -/
theorem getNpmInfo_hit_or_single_fetch_witness :
    getNpmInfo [("pkg", sampleInfo)] none "pkg" (some "H") =
      { info := some sampleInfo, cache := [("pkg", sampleInfo)],
        fetchCount := 0 } :=
  (getNpmInfo_hit_or_single_fetch [("pkg", sampleInfo)] none "pkg" sampleInfo
      "H" (by decide)).1 (by decide)

/-- C3: on the fetch path (no cache hit), the fresh result is stored under
the name exactly when the fetch returned a defined result and a content hash
was supplied; with an absent content hash, `getNpmInfo` always performs one
fetch regardless of cache state, returns the fetch result, and leaves the
cache unmutated. -/
theorem getNpmInfo_store_policy (cache : Cache) (fetchResult : Option NpmInfo)
    (name : String) :
    (∀ h info, cacheHit cache name (some h) = false → fetchResult = some info →
        getNpmInfo cache fetchResult name (some h) =
          { info := some info, cache := mapSet cache name info,
            fetchCount := 1 }) ∧
    (∀ h, cacheHit cache name (some h) = false → fetchResult = none →
        getNpmInfo cache fetchResult name (some h) =
          { info := none, cache := cache, fetchCount := 1 }) ∧
    (getNpmInfo cache fetchResult name none =
        { info := fetchResult, cache := cache, fetchCount := 1 }) := by
  have hnone : cacheHit cache name none = false := by
    unfold cacheHit
    cases cache.lookup name <;> rfl
  refine ⟨?_, ?_, ?_⟩
  · intro h info hmiss hfr
    subst hfr
    simp [getNpmInfo, hmiss, fetchAndUpdate]
  · intro h hmiss hfr
    subst hfr
    simp [getNpmInfo, hmiss, fetchAndUpdate]
  · cases fetchResult <;> simp [getNpmInfo, hnone, fetchAndUpdate]

/-- C3 witness: a concrete fetch-path call with a supplied hash stores the
fetched entry; the hypotheses hold by evaluation on the empty cache. -/
theorem getNpmInfo_store_policy_witness :
    getNpmInfo [] (some sampleInfo) "pkg" (some "H2") =
      { info := some sampleInfo, cache := mapSet [] "pkg" sampleInfo,
        fetchCount := 1 } :=
  (getNpmInfo_store_policy [] (some sampleInfo) "pkg").1 "H2" sampleInfo
    (by decide) rfl

/-- C10: when the supplied hash matches no cached version and the fetch
returns absent, the cache is left exactly as it was; in particular the stale
entry for the name is retained. -/
theorem getNpmInfo_absent_fetch_frame (cache : Cache) (name : String)
    (entry : NpmInfo) (h : String)
    (hlook : cache.lookup name = some entry)
    (hstale : hasMatchingHash entry h = false) :
    getNpmInfo cache none name (some h) =
      { info := none, cache := cache, fetchCount := 1 } ∧
    (getNpmInfo cache none name (some h)).cache.lookup name = some entry := by
  have heq : getNpmInfo cache none name (some h) =
      { info := none, cache := cache, fetchCount := 1 } := by
    simp [getNpmInfo, cacheHit, hlook, hstale, fetchAndUpdate]
  exact ⟨heq, by rw [heq]; exact hlook⟩

/-- C10 witness: a stale concrete entry (hash `"H"`, queried with `"H2"`)
survives an absent fetch untouched. -/
theorem getNpmInfo_absent_fetch_frame_witness :
    getNpmInfo [("pkg", sampleInfo)] none "pkg" (some "H2") =
      { info := none, cache := [("pkg", sampleInfo)], fetchCount := 1 } :=
  (getNpmInfo_absent_fetch_frame [("pkg", sampleInfo)] "pkg" sampleInfo "H2"
      (by decide) (by decide)).1

/-- C5: `fetchNpmInfo` returns absent exactly when the registry answers an
error payload whose error string is exactly `"Not found"`; any other error
payload throws an error carrying the package name and the upstream message;
a non-error payload is normalized and returned. -/
theorem fetchNpmInfo_error_taxonomy (escapedPackageName : String)
    (response : RegistryResponse) :
    (fetchNpmInfo escapedPackageName response = .ok none ↔
        response = .errorPayload "Not found") ∧
    (∀ msg, msg ≠ "Not found" → response = .errorPayload msg →
        fetchNpmInfo escapedPackageName response =
          .error ("Error getting version at " ++ escapedPackageName ++ ": " ++ msg)) ∧
    (∀ raw, response = .payload raw →
        fetchNpmInfo escapedPackageName response =
          .ok (some (npmInfoFromJson raw))) := by
  refine ⟨?_, ?_, ?_⟩
  · cases response with
    | errorPayload msg =>
      by_cases hm : msg = "Not found"
      · subst hm
        simp [fetchNpmInfo, fetchRawNpmInfo]
      · simp [fetchNpmInfo, fetchRawNpmInfo, hm]
    | payload raw => simp [fetchNpmInfo, fetchRawNpmInfo]
  · intro msg hmsg hresp
    subst hresp
    simp [fetchNpmInfo, fetchRawNpmInfo, hmsg]
  · intro raw hresp
    subst hresp
    simp [fetchNpmInfo, fetchRawNpmInfo]

/-- C5 witness: the literal `"Not found"` error payload yields the absent
result for a concrete package. -/
theorem fetchNpmInfo_error_taxonomy_witness :
    fetchNpmInfo "abs" (.errorPayload "Not found") = .ok none :=
  (fetchNpmInfo_error_taxonomy "abs" (.errorPayload "Not found")).1.mpr rfl

/-- Replacing the first `'/'` in a character list that splits as
`cs ++ '/' :: ts` with `'/'`-free `cs` substitutes `repl` for that slash. -/
theorem replaceFirstList_slash (repl : List Char) (cs ts : List Char) :
    ('/' : Char) ∉ cs →
      replaceFirstList ['/'] repl (cs ++ '/' :: ts) = cs ++ (repl ++ ts) := by
  induction cs with
  | nil =>
    intro _
    simp [replaceFirstList, listStartsWith]
  | cons c cs ih =>
    intro hcs
    have hc : (('/' : Char) == c) = false := by
      simp only [beq_eq_false_iff_ne, ne_eq]
      intro h
      exact hcs (by rw [h]; exact List.mem_cons_self c cs)
    have hcs' : ('/' : Char) ∉ cs := fun h => hcs (List.mem_cons_of_mem c h)
    simp [replaceFirstList, listStartsWith, hc, ih hcs']

/-- C6: for a scoped package name `scope ++ "/" ++ rest` (no slash in the
scope part), the deprecate target URL percent-encodes that slash as `%2f`:
it is the registry base followed by `scope ++ "%2f" ++ rest`. -/
theorem deprecateUrl_encodes_scope_slash (scope rest : String)
    (hscope : ('/' : Char) ∉ scope.data) :
    deprecateUrl (scope ++ "/" ++ rest) =
      npmRegistry ++ (scope ++ "%2f" ++ rest) := by
  unfold deprecateUrl packageUrl
  congr 1
  apply String.ext
  show replaceFirstList "/".data "%2f".data (scope ++ "/" ++ rest).data
      = (scope ++ "%2f" ++ rest).data
  have hslash : "/".data = ['/'] := rfl
  have h1 : (scope ++ "/" ++ rest).data = scope.data ++ '/' :: rest.data := by
    rw [String.data_append, String.data_append, hslash, List.append_assoc]
    rfl
  rw [hslash, h1, replaceFirstList_slash "%2f".data scope.data rest.data hscope]
  rw [String.data_append, String.data_append, List.append_assoc]

/-- C6 witness: `deprecate("@scope/pkg", ...)` targets
`<registry-base>/@scope%2fpkg`. -/
theorem deprecateUrl_encodes_scope_slash_witness :
    deprecateUrl ("@scope" ++ "/" ++ "pkg") =
      npmRegistry ++ ("@scope" ++ "%2f" ++ "pkg") :=
  deprecateUrl_encodes_scope_slash "@scope" "pkg" (by decide)

/-- C7: for every directory path, package metadata, and registry behavior,
a dry-run publish resolves successfully and issues zero registry calls. -/
theorem publish_dry_run (publishedDirectory : String)
    (packageJson : List (String × String)) (registryError : Option String) :
    publish publishedDirectory packageJson registryError true =
      { result := .ok (), registryCalls := 0 } := rfl

/-- C8: with an empty added-packages list, the workflow issues zero registry
calls, publishes nothing, and emits the "no new packages" log line. -/
theorem mainWorkflow_nothing_changed (typings : List String) (lastPatch : Nat)
    (dry : Bool) :
    (mainWorkflow [] typings lastPatch dry).registryCalls = 0 ∧
    "No new packages published, so no need to publish new registry."
        ∈ (mainWorkflow [] typings lastPatch dry).logLines ∧
    (mainWorkflow [] typings lastPatch dry).published = none := by
  refine ⟨rfl, ?_, rfl⟩
  simp [mainWorkflow]

/-- Looking up the key just set by `mapSet` yields the new value. -/
theorem lookup_mapSet_self {β : Type} (m : List (String × β)) (k : String)
    (v : β) : (mapSet m k v).lookup k = some v := by
  induction m with
  | nil => simp [mapSet, List.lookup]
  | cons p rest ih =>
    obtain ⟨k₀, v₀⟩ := p
    by_cases hk : k₀ = k
    · subst hk
      simp [mapSet, List.lookup]
    · have hbk : (k == k₀) = false := beq_eq_false_iff_ne.mpr (Ne.symm hk)
      simp [mapSet, hk, List.lookup, hbk, ih]

/-- `mapSet` does not disturb the lookup of any other key. -/
theorem lookup_mapSet_ne {β : Type} (m : List (String × β)) (k k' : String)
    (v : β) (hne : k' ≠ k) : (mapSet m k v).lookup k' = m.lookup k' := by
  have hbne : (k' == k) = false := beq_eq_false_iff_ne.mpr hne
  induction m with
  | nil => simp [mapSet, List.lookup, hbne]
  | cons p rest ih =>
    obtain ⟨k₀, v₀⟩ := p
    by_cases hk : k₀ = k
    · subst hk
      simp [mapSet, List.lookup, hbne]
    · by_cases h0 : k' = k₀
      · subst h0
        simp [mapSet, hk, List.lookup]
      · have hb0 : (k' == k₀) = false := beq_eq_false_iff_ne.mpr h0
        simp [mapSet, hk, List.lookup, hb0, ih]

/-- Every key inserted by the `generateRegistry` fold looks up to `1`,
provided every binding already in the accumulator has value `1`-lookup. -/
theorem lookup_generateRegistry_aux (typings : List String) :
    ∀ (acc : List (String × Nat)) (k : String),
      (k ∈ typings ∨ acc.lookup k = some 1) →
      (typings.foldl (fun entries n => mapSet entries n 1) acc).lookup k
        = some 1 := by
  induction typings with
  | nil =>
    intro acc k hk
    rcases hk with h | h
    · exact absurd h (List.not_mem_nil k)
    · simpa using h
  | cons t ts ih =>
    intro acc k hk
    simp only [List.foldl_cons]
    apply ih
    rcases hk with h | h
    · rcases List.mem_cons.mp h with h | h
      · right
        subst h
        exact lookup_mapSet_self acc k 1
      · left
        exact h
    · by_cases hkt : k = t
      · subst hkt
        right
        exact lookup_mapSet_self acc k 1
      · right
        rw [lookup_mapSet_ne acc t k 1 hkt]
        exact h

/-- C9: with a non-empty added-packages list the workflow publishes the
meta-package with patch number one above the last published patch (version
`"0.1." ++ toString (lastPatch + 1)`), and the generated index maps every
currently known package name to `1`. -/
theorem mainWorkflow_changed (added typings : List String) (lastPatch : Nat)
    (dry : Bool) (hne : added ≠ []) :
    (mainWorkflow added typings lastPatch dry).published =
      some (generatePackageJson (lastPatch + 1), generateRegistry typings) ∧
    (generatePackageJson (lastPatch + 1)).version =
      "0.1." ++ toString (lastPatch + 1) ∧
    ∀ k, k ∈ typings → (generateRegistry typings).lookup k = some 1 := by
  refine ⟨?_, rfl, ?_⟩
  · have hlen : added.length ≠ 0 := by
      intro h
      exact hne (List.length_eq_zero.mp h)
    simp [mainWorkflow, generateAndPublishRegistry, hlen]
  · intro k hk
    exact lookup_generateRegistry_aux typings [] k (Or.inl hk)

/-- C9 witness: one new package, last patch 41: the published version string
is `"0.1.42"` and a concrete known package maps to `1` in the index. -/
theorem mainWorkflow_changed_witness :
    (mainWorkflow ["abs"] ["abs", "node"] 41 false).published =
      some (generatePackageJson 42, generateRegistry ["abs", "node"]) ∧
    (generatePackageJson 42).version = "0.1.42" ∧
    (generateRegistry ["abs", "node"]).lookup "node" = some 1 := by
  have h := mainWorkflow_changed ["abs"] ["abs", "node"] 41 false (by decide)
  exact ⟨h.1, by rw [h.2.1]; rfl, h.2.2 "node" (by simp)⟩

end TypesPublisher
